import Mathlib

/-!
# Raycommand: the prompt / completion / extraction / execution pipeline of `main.go`

A shallow embedding of `src/main.go`.

* Go strings are Lean `String`s, that is, sequences of Unicode scalar values (valid
  UTF-8 text, which is what `encoding/json` puts in a decoded string); the
  standard-library functions the program calls (`strings.Split`, `strings.TrimSpace`,
  `strings.HasPrefix`, `strings.Join`, `unicode.IsSpace`, `fmt.Sprintf`) are given as
  executable definitions.
* A Go `(string, error)` result is a pair `String × Option GoError`; a run-time panic
  (a failed single-value type assertion) is the extra outcome `Run.panic`.
* Everything outside the process (the JSON codec, the HTTP client, `uname`, the working
  directory, the shell) is a field of `World`; effects are recorded in a list of `Event`s.
-/

namespace Raycommand

/-! ## Values -/

/-- Values of Go type `interface{}` as `encoding/json` produces and consumes them.
`null` is the nil interface; a number is carried as its literal text (the program never
inspects one); a map is an association list read by first match. -/
inductive JVal where
  | null : JVal
  | bool (b : Bool) : JVal
  | number (lit : String) : JVal
  | string (s : String) : JVal
  | array (xs : List JVal) : JVal
  | object (kvs : List (String × JVal)) : JVal

/-- Go `map[string]interface{}`. -/
abbrev GoMap := List (String × JVal)

/-- Go map indexing `m[k]`: the stored value, or the zero value (nil interface) when the
key is absent. -/
def GoMap.index (m : GoMap) (k : String) : JVal :=
  (m.lookup k).getD JVal.null

/-- Comma-ok type assertion `v.([]interface{})`. -/
def JVal.asSlice : JVal → Option (List JVal)
  | .array xs => some xs
  | _ => none

/-- Comma-ok type assertion `v.(map[string]interface{})`. -/
def JVal.asMap : JVal → Option GoMap
  | .object kvs => some kvs
  | _ => none

/-- Comma-ok type assertion `v.(string)`. -/
def JVal.asString : JVal → Option String
  | .string s => some s
  | _ => none

/-- Name of the dynamic type of an interface value, as the Go runtime prints it. -/
def JVal.typeName : JVal → String
  | .null => "nil"
  | .bool _ => "bool"
  | .number _ => "float64"
  | .string _ => "string"
  | .array _ => "[]interface {}"
  | .object _ => "map[string]interface {}"

/-- Go error values. `errorsNew msg` is a value made by `errors.New(msg)` in this program;
`library msg` is an error handed back by a library call, with its text. -/
inductive GoError where
  | errorsNew (msg : String) : GoError
  | library (msg : String) : GoError
  deriving DecidableEq, Repr

/-- Method `Error()` of an error value. -/
def GoError.Error : GoError → String
  | .errorsNew msg => msg
  | .library msg => msg

/-- Outcome of running a Go function: it returns a value, or it panics. -/
inductive Run (α : Type) where
  | ret (a : α) : Run α
  | panic (msg : String) : Run α
  deriving DecidableEq, Repr

/-- Single-value type assertion `v.(map[string]interface{})`: panics when it fails. -/
def JVal.mustMap (v : JVal) : Run GoMap :=
  match v.asMap with
  | some m => .ret m
  | none => .panic ("interface conversion: interface {} is " ++ v.typeName ++
      ", not map[string]interface {}")

/-- Go builtin `len` on a string: its length in bytes. -/
def len (s : String) : Nat := s.utf8ByteSize

/-! ## Package `unicode` and package `strings` -/

namespace unicode

/-- Go `unicode.IsSpace`: the Latin-1 spaces, and the `White_Space` property above them. -/
def IsSpace (r : Char) : Bool :=
  let n := r.toNat
  if n ≤ 0xFF then
    n == 0x09 || n == 0x0A || n == 0x0B || n == 0x0C || n == 0x0D || n == 0x20 ||
      n == 0x85 || n == 0xA0
  else
    n == 0x1680 || (decide (0x2000 ≤ n) && decide (n ≤ 0x200A)) || n == 0x2028 ||
      n == 0x2029 || n == 0x202F || n == 0x205F || n == 0x3000

end unicode

namespace strings

/-- Pieces of `s` between the non-overlapping, leftmost occurrences of a non-empty `sep`.
The first argument counts the characters of a matched separator still to be skipped. -/
def genSplit (sep : List Char) : Nat → List Char → List (List Char)
  | _, [] => [[]]
  | k + 1, _ :: cs => genSplit sep k cs
  | 0, c :: cs =>
    if sep.isPrefixOf (c :: cs) then [] :: genSplit sep (sep.length - 1) cs
    else
      match genSplit sep 0 cs with
      | [] => [[c]]
      | l :: ls => (c :: l) :: ls

/-- Go `strings.Split(s, sep)`: an empty `sep` explodes `s` into its characters. -/
def Split (s sep : String) : List String :=
  if sep.data.isEmpty then s.data.map fun c => String.mk [c]
  else (genSplit sep.data 0 s.data).map String.mk

/-- Go `strings.TrimSpace`: `s` without its leading and trailing white space. -/
def TrimSpace (s : String) : String :=
  String.mk ((s.data.dropWhile unicode.IsSpace).rdropWhile unicode.IsSpace)

/-- Go `strings.HasPrefix`. -/
def HasPrefix (s pre : String) : Bool :=
  pre.data.isPrefixOf s.data

/-- Go `strings.Join`. -/
def Join (elems : List String) (sep : String) : String :=
  String.mk (List.intercalate sep.data (elems.map String.data))

end strings

/-! ## `extractCommand` -/

/-- The `for _, line := range lines` loop of `extractCommand`, with the final
`return "", errors.New("no valid command found in response")`. -/
def extractCommand.scan : List String → String × Option GoError
  | [] => ("", some (.errorsNew "no valid command found in response"))
  | line :: rest =>
    let line := strings.TrimSpace line
    if len line > 0 && !strings.HasPrefix line "```bash" then (line, none)
    else extractCommand.scan rest

/-- Function `extractCommand` of `main.go`. `jsonUnmarshal` is `json.Unmarshal` into a
`map[string]interface{}` variable: the decoded map, or the text of the decoding error. -/
def extractCommand (jsonUnmarshal : String → Except String GoMap) (response : String) :
    Run (String × Option GoError) :=
  match jsonUnmarshal response with
  | .error e => .ret ("", some (.library e))
  | .ok parsedResponse =>
    match (parsedResponse.index "choices").asSlice with
    | none => .ret ("", some (.errorsNew "no choices found in response"))
    | some [] => .ret ("", some (.errorsNew "no choices found in response"))
    | some (choice0 :: _) =>
      match choice0.mustMap with
      | .panic msg => .panic msg
      | .ret firstChoice =>
        match (firstChoice.index "message").mustMap with
        | .panic msg => .panic msg
        | .ret message =>
          match (message.index "content").asString with
          | none => .ret ("", some (.errorsNew "failed to extract content from response"))
          | some content => .ret (extractCommand.scan (strings.Split content "\n"))

/-! ## A JSON decoder

A decoder for the JSON grammar, giving the values `json.Unmarshal` stores in a
`map[string]interface{}`. It instantiates the `jsonUnmarshal` parameter at concrete
response bodies; the general theorems hold for every decoder. -/

namespace json

/-- Skip JSON white space. -/
def skipWs : List Char → List Char
  | c :: cs => if c = ' ' ∨ c = '\t' ∨ c = '\r' ∨ c = '\n' then skipWs cs else c :: cs
  | [] => []

/-- Value of a hexadecimal digit. -/
def hexVal (c : Char) : Option Nat :=
  let n := c.toNat
  if 48 ≤ n ∧ n ≤ 57 then some (n - 48)
  else if 97 ≤ n ∧ n ≤ 102 then some (n - 87)
  else if 65 ≤ n ∧ n ≤ 70 then some (n - 55)
  else none

/-- The four hexadecimal digits after `\u`. -/
def getu4 : List Char → Option (Nat × List Char)
  | a :: b :: c :: d :: r =>
    match hexVal a, hexVal b, hexVal c, hexVal d with
    | some x, some y, some z, some w => some (((x * 16 + y) * 16 + z) * 16 + w, r)
    | _, _, _, _ => none
  | _ => none

/-- The characters of a string literal after its opening quote, unescaped. -/
def strBody : Nat → List Char → List Char → Option (String × List Char)
  | 0, _, _ => none
  | _ + 1, [], _ => none
  | f + 1, c :: r, acc =>
    if c = '"' then some (String.mk acc.reverse, r)
    else if c = '\\' then
      match r with
      | [] => none
      | e :: r1 =>
        if e = '"' ∨ e = '\\' ∨ e = '/' then strBody f r1 (e :: acc)
        else if e = 'b' then strBody f r1 (Char.ofNat 8 :: acc)
        else if e = 'f' then strBody f r1 (Char.ofNat 12 :: acc)
        else if e = 'n' then strBody f r1 ('\n' :: acc)
        else if e = 'r' then strBody f r1 ('\r' :: acc)
        else if e = 't' then strBody f r1 ('\t' :: acc)
        else if e = 'u' then
          match getu4 r1 with
          | none => none
          | some (hi, r2) =>
            if 0xD800 ≤ hi ∧ hi < 0xE000 then
              match r2 with
              | '\\' :: 'u' :: r3 =>
                match getu4 r3 with
                | some (lo, r4) =>
                  if hi < 0xDC00 ∧ 0xDC00 ≤ lo ∧ lo < 0xE000 then
                    strBody f r4 (Char.ofNat (0x10000 + (hi - 0xD800) * 0x400 + (lo - 0xDC00)) :: acc)
                  else strBody f r2 (Char.ofNat 0xFFFD :: acc)
                | none => strBody f r2 (Char.ofNat 0xFFFD :: acc)
              | _ => strBody f r2 (Char.ofNat 0xFFFD :: acc)
            else strBody f r2 (Char.ofNat hi :: acc)
        else none
    else if c.toNat < 0x20 then none
    else strBody f r (c :: acc)

/-- Leading decimal digits of the input, and what follows them. -/
def digits : List Char → List Char × List Char
  | c :: cs =>
    if c.isDigit then ((digits cs).1.cons c, (digits cs).2) else ([], c :: cs)
  | [] => ([], [])

/-- A JSON number literal: `-? (0 | [1-9][0-9]*) (. [0-9]+)? ([eE] [+-]? [0-9]+)?`. -/
def numberLit (cs : List Char) : Option (String × List Char) :=
  let (sign, r0) := match cs with
    | '-' :: r => (['-'], r)
    | r => ([], r)
  let (int, r1) := digits r0
  if int.isEmpty ∨ (int.head? = some '0' ∧ int.length ≠ 1) then none
  else
    let fracPart : Option (List Char × List Char) := match r1 with
      | '.' :: r =>
        let (fr, r2) := digits r
        if fr.isEmpty then none else some ('.' :: fr, r2)
      | r => some ([], r)
    match fracPart with
    | none => none
    | some (frac, r2) =>
      let expPart : Option (List Char × List Char) := match r2 with
        | e :: r =>
          if e = 'e' ∨ e = 'E' then
            let (sg, r3) := match r with
              | '+' :: r => (['+'], r)
              | '-' :: r => (['-'], r)
              | r => ([], r)
            let (ex, r4) := digits r3
            if ex.isEmpty then none else some (e :: sg ++ ex, r4)
          else some ([], e :: r)
        | [] => some ([], [])
      match expPart with
      | none => none
      | some (ex, r3) => some (String.mk (sign ++ int ++ frac ++ ex), r3)

/-- Store `v` under `k`, replacing an earlier value for the same key. -/
def setKey (m : GoMap) (k : String) (v : JVal) : GoMap :=
  (k, v) :: m.filter fun kv => kv.1 != k

mutual
/-- One JSON value, after optional white space. -/
def value : Nat → List Char → Option (JVal × List Char)
  | 0, _ => none
  | f + 1, cs =>
    match skipWs cs with
    | [] => none
    | c :: r =>
      if c = '{' then
        match skipWs r with
        | '}' :: r1 => some (.object [], r1)
        | _ => (members f r []).map fun p => (JVal.object p.1, p.2)
      else if c = '[' then
        match skipWs r with
        | ']' :: r1 => some (.array [], r1)
        | _ => (elements f r []).map fun p => (JVal.array p.1, p.2)
      else if c = '"' then
        (strBody r.length.succ r []).map fun p => (JVal.string p.1, p.2)
      else if c = 't' then
        match r with
        | 'r' :: 'u' :: 'e' :: r1 => some (.bool true, r1)
        | _ => none
      else if c = 'f' then
        match r with
        | 'a' :: 'l' :: 's' :: 'e' :: r1 => some (.bool false, r1)
        | _ => none
      else if c = 'n' then
        match r with
        | 'u' :: 'l' :: 'l' :: r1 => some (.null, r1)
        | _ => none
      else (numberLit (c :: r)).map fun p => (JVal.number p.1, p.2)
/-- The elements of an array after `[`, up to and including `]`. -/
def elements : Nat → List Char → List JVal → Option (List JVal × List Char)
  | 0, _, _ => none
  | f + 1, cs, acc =>
    match value f cs with
    | none => none
    | some (v, r) =>
      match skipWs r with
      | c :: r1 =>
        if c = ',' then elements f r1 (v :: acc)
        else if c = ']' then some ((v :: acc).reverse, r1)
        else none
      | [] => none
/-- The members of an object after `{`, up to and including `}`. -/
def members : Nat → List Char → GoMap → Option (GoMap × List Char)
  | 0, _, _ => none
  | f + 1, cs, acc =>
    match skipWs cs with
    | c :: r =>
      if c = '"' then
        match strBody r.length.succ r [] with
        | none => none
        | some (k, r1) =>
          match skipWs r1 with
          | c1 :: r2 =>
            if c1 = ':' then
              match value f r2 with
              | none => none
              | some (v, r3) =>
                match skipWs r3 with
                | c2 :: r4 =>
                  if c2 = ',' then members f r4 (setKey acc k v)
                  else if c2 = '}' then some (setKey acc k v, r4)
                  else none
                | [] => none
            else none
          | [] => none
      else none
    | [] => none
end

/-- Name of the JSON kind of a value in a decoding error. -/
def kindName : JVal → String
  | .null => "null"
  | .bool _ => "bool"
  | .number _ => "number"
  | .string _ => "string"
  | .array _ => "array"
  | .object _ => "object"

/-- Go `json.Unmarshal([]byte(data), &m)` for `var m map[string]interface{}`: a JSON
object fills the map, `null` leaves it nil, any other input is an error. -/
def Unmarshal (data : String) : Except String GoMap :=
  match value (2 * data.length + 2) data.data with
  | some (v, rest) =>
    if (skipWs rest).isEmpty then
      match v with
      | .object kvs => .ok kvs
      | .null => .ok []
      | v => .error ("json: cannot unmarshal " ++ kindName v ++
          " into Go value of type map[string]interface {}")
    else .error "json: invalid character after top-level value"
  | none => .error "json: syntax error"

end json

/-! ## Package `fmt` -/

namespace fmt

/-- Decimal rendering of an integer, as the verb `%d` prints it. -/
def decimal (n : Int) : String :=
  if n < 0 then "-" ++ Nat.repr n.natAbs else Nat.repr n.natAbs

/-- Operands of the formatting calls in `main.go`. -/
inductive Arg where
  | string (s : String) : Arg
  | bytes (s : String) : Arg
  | int (n : Int) : Arg
  | error (e : GoError) : Arg

/-- Go type of an operand. -/
def Arg.typeName : Arg → String
  | .string _ => "string"
  | .bytes _ => "[]uint8"
  | .int _ => "int"
  | .error _ => "*errors.errorString"

/-- Text of an operand under a verb that accepts it. -/
def Arg.text : Arg → String
  | .string s => s
  | .bytes s => s
  | .int n => decimal n
  | .error e => e.Error

/-- Whether verb `v` accepts operand `a`: `%s` text, `%d` integers, `%v` anything but the
byte slice (which `%v` prints as a list of numbers). -/
def accepts (v : Char) : Arg → Bool
  | .string _ => v = 's' ∨ v = 'v'
  | .bytes _ => v = 's'
  | .int _ => v = 'd' ∨ v = 'v'
  | .error _ => v = 's' ∨ v = 'v'

/-- One operand under one verb; a verb that does not fit gives the `%!verb(type=value)`
diagnostic. -/
def render (v : Char) (a : Arg) : List Char :=
  if accepts v a then a.text.data
  else "%!".data ++ v :: "(".data ++ a.typeName.data ++ "=".data ++ a.text.data ++ ")".data

/-- Operands left over when the format is exhausted, as `type=value`. -/
def surplus : List Arg → List (List Char)
  | [] => []
  | a :: as => (a.typeName.data ++ "=".data ++ a.text.data) :: surplus as

/-- The formatting loop: literal text is copied, `%%` is a percent sign, any other `%v`
consumes the next operand. Operands are copied, never scanned for verbs. Flags, width and
precision are not modelled (the program uses none). -/
def Sprintf.go : List Char → List Arg → List Char
  | [], [] => []
  | [], a :: as => "%!(EXTRA ".data ++ List.intercalate ", ".data (surplus (a :: as)) ++ ")".data
  | c :: cs, args =>
    if c = '%' then
      match cs with
      | [] => "%!(NOVERB)".data ++ Sprintf.go [] args
      | v :: rest =>
        if v = '%' then '%' :: Sprintf.go rest args
        else
          match args with
          | [] => "%!".data ++ v :: "(MISSING)".data ++ Sprintf.go rest []
          | a :: as => render v a ++ Sprintf.go rest as
    else c :: Sprintf.go cs args

/-- Go `fmt.Sprintf`. -/
def Sprintf (format : String) (args : List Arg) : String :=
  String.mk (Sprintf.go format.data args)

end fmt

/-! ## The outside world and the trace of effects -/

/-- An `*http.Request`. -/
structure Request where
  Method : String
  URL : String
  Header : List (String × String)
  Body : String
  deriving DecidableEq, Repr

/-- Go `req.Header.Set(key, value)`: the value replaces any earlier one for the key. -/
def Request.HeaderSet (req : Request) (key value : String) : Request :=
  { req with Header := (req.Header.filter fun kv => kv.1 != key) ++ [(key, value)] }

/-- An `*http.Response`: the status code, and what `ioutil.ReadAll(resp.Body)` gives (the
bytes read and the read error, if any). -/
structure Response where
  StatusCode : Int
  Body : String × Option String
  deriving DecidableEq, Repr

/-- What `cmd.Run()` observes of the child: its exit code, or a failure to start it or to
wait for it. -/
inductive RunResult where
  | exited (code : Nat) : RunResult
  | failed (err : String) : RunResult
  deriving DecidableEq, Repr

/-- Go `cmd.Run()`: nil exactly when the child ran and exited with status 0. -/
def RunResult.err : RunResult → Option GoError
  | .exited 0 => none
  | .exited (n + 1) => some (.library ("exit status " ++ Nat.repr (n + 1)))
  | .failed e => some (.library e)

/-- Everything the program reads from outside itself. -/
structure World where
  /-- Result of `godotenv.Load()`: the error text when no settings file was loaded. -/
  godotenvLoad : Option String
  /-- Value of `os.Getenv` (after the settings file was merged). -/
  getenv : String → String
  /-- Result of `exec.Command("uname", "-a").Output()`: output and error. -/
  unameOutput : String × Option String
  /-- Result of `os.Getwd()`. -/
  getwd : String × Option String
  /-- Function `json.Marshal`. -/
  jsonMarshal : JVal → Except String String
  /-- Function `json.Unmarshal` into a `map[string]interface{}`. -/
  jsonUnmarshal : String → Except String GoMap
  /-- Function `http.NewRequest`. -/
  httpNewRequest : String → String → String → Except String Request
  /-- Method `http.DefaultClient.Do`. -/
  httpDo : Request → Except String Response
  /-- Outcome of running `bash -c command`. -/
  bashRun : String → RunResult
  /-- Date and time prefix the standard logger writes. -/
  logPrefix : String

/-- Observable effects, in the order they happen. -/
inductive Event where
  | stdout (text : String) : Event
  | stderr (text : String) : Event
  | http (req : Request) : Event
  | exec (name : String) (args : List String) : Event
  | goPanic (msg : String) : Event
  deriving DecidableEq, Repr

/-- Go `fmt.Println` of one string. -/
def Println (s : String) : Event := .stdout (s ++ "\n")

/-! ## `main.go` -/

/-- Type `APIConfig` of `main.go`. -/
structure APIConfig where
  Name : String
  URL : String
  APIKey : String
  deriving DecidableEq, Repr

/-- Global `deepseekAPI`, as `init` leaves it. -/
def deepseekAPI (w : World) : APIConfig :=
  { Name := "deepseek"
    URL := "https://api.deepseek.com/chat/completions"
    APIKey := w.getenv "DEEPSEEK_API_KEY" }

/-- Global `openaiAPI`, as `init` leaves it. -/
def openaiAPI (w : World) : APIConfig :=
  { Name := "openai"
    URL := "https://api.openai.com/v1/chat/completions"
    APIKey := w.getenv "OPENAI_API_KEY" }

/-- Function `init` of `main.go`: what it prints. -/
def init (w : World) : List Event :=
  match w.godotenvLoad with
  | some _ => [Println "No .env file found, using system environment variables."]
  | none => []

/-- Type `SystemInfo` of `main.go`. -/
structure SystemInfo where
  OS : String
  Dir : String
  deriving DecidableEq, Repr

/-- Function `getSystemInfo` of `main.go` (`main` does not call it). -/
def getSystemInfo (w : World) : SystemInfo × Option GoError :=
  match w.unameOutput with
  | (_, some err) => (⟨"", ""⟩, some (.library err))
  | (osInfo, none) =>
    match w.getwd with
    | (_, some err) => (⟨"", ""⟩, some (.library err))
    | (dir, none) => (⟨strings.TrimSpace osInfo, dir⟩, none)

/-- The map literal `sendRequest` hands to `json.Marshal`. -/
def requestPayload (prompt : String) : JVal :=
  .object [
    ("model", .string "deepseek-chat"),
    ("messages", .array [.object [("role", .string "user"), ("content", .string prompt)]]),
    ("frequency_penalty", .number "0"),
    ("max_tokens", .number "2048"),
    ("presence_penalty", .number "0"),
    ("response_format", .object [("type", .string "text")]),
    ("stop", .null),
    ("stream", .bool false),
    ("stream_options", .null),
    ("temperature", .number "1"),
    ("top_p", .number "1"),
    ("tools", .null),
    ("tool_choice", .string "none"),
    ("logprobs", .bool false),
    ("top_logprobs", .null)]

/-- The three `req.Header.Set` calls of `sendRequest`. -/
def sendRequest.headers (apiConfig : APIConfig) (req : Request) : Request :=
  ((req.HeaderSet "Content-Type" "application/json").HeaderSet "Accept"
    "application/json").HeaderSet "Authorization"
      (fmt.Sprintf "Bearer %s" [.string apiConfig.APIKey])

/-- Function `sendRequest` of `main.go`. It returns the `(string, error)` pair and the
trace extended by the effects of the call. -/
def sendRequest (w : World) (apiConfig : APIConfig) (prompt : String) (trace : List Event) :
    (String × Option GoError) × List Event :=
  if apiConfig.APIKey = "" then
    (("", some (.errorsNew
      "API key is missing. Please check your .env file or environment variables.")), trace)
  else
    match w.jsonMarshal (requestPayload prompt) with
    | .error err => (("", some (.library err)), trace)
    | .ok requestBody =>
      match w.httpNewRequest "POST" apiConfig.URL requestBody with
      | .error err => (("", some (.library err)), trace)
      | .ok req =>
        let req := sendRequest.headers apiConfig req
        let trace := trace ++ [.http req]
        match w.httpDo req with
        | .error err => (("", some (.library err)), trace)
        | .ok resp =>
          if resp.StatusCode ≠ 200 then
            let body := resp.Body.1
            (("", some (.errorsNew (fmt.Sprintf "API returned status %d: %s"
              [.int resp.StatusCode, .bytes body]))), trace)
          else
            match resp.Body with
            | (_, some err) => (("", some (.library err)), trace)
            | (body, none) => ((body, none), trace)

/-- Function `executeCommand` of `main.go`: the error of `cmd.Run()` and the extended
trace. -/
def executeCommand (w : World) (command : String) (trace : List Event) :
    Option GoError × List Event :=
  let trace := trace ++ [Println "\n正在执行以下命令...", Println command, Println "\n"]
  let trace := trace ++ [.exec "bash" ["-c", command]]
  ((w.bashRun command).err, trace)

/-- The prompt `main` builds from the program arguments (lines 73 to 82). -/
def main.prompt (w : World) (osArgs : List String) : String :=
  let command := strings.Join (osArgs.drop 1) " "
  let systemInfo := w.unameOutput.1
  let currentDir := w.getwd.1
  fmt.Sprintf "当前系统信息: %s, 当前目录: %s, 请帮我用bash命令完成以下任务:'%s'。1.仅输出代码。 2.不需要解释。"
    [.string (strings.TrimSpace systemInfo), .string currentDir, .string command]

/-- A finished process: what it did and its exit code. -/
structure Exit where
  trace : List Event
  code : Nat
  deriving DecidableEq, Repr

/-- Function `main` of `main.go`. A return from `main` exits with 0, `log.Fatalf` with 1,
an unrecovered panic with 2. -/
def main (w : World) (osArgs : List String) : Exit :=
  if osArgs.length < 2 then
    ⟨[Println "Usage: ray [your natural language command]"], 0⟩
  else
    let apiConfig := deepseekAPI w
    let trace := [Event.exec "uname" ["-a"]]
    let prompt := main.prompt w osArgs
    match sendRequest w apiConfig prompt trace with
    | ((_, some err), trace) =>
      ⟨trace ++ [.stdout (fmt.Sprintf "Error: %v\n" [.error err])], 0⟩
    | ((response, none), trace) =>
      match extractCommand w.jsonUnmarshal response with
      | .panic msg => ⟨trace ++ [.goPanic msg], 2⟩
      | .ret (_, some err) =>
        ⟨trace ++ [.stdout (fmt.Sprintf "Failed to extract command: %v\n" [.error err])], 0⟩
      | .ret (extractedCommand, none) =>
        match executeCommand w extractedCommand trace with
        | (some err, trace) =>
          ⟨trace ++ [.stderr (w.logPrefix ++
            fmt.Sprintf "Error executing command: %v" [.error err] ++ "\n")], 1⟩
        | (none, trace) => ⟨trace, 0⟩

/-! ## Vocabulary of the statements -/

/-- Content of the first choice of a decoded response: `choices[0].message.content`, when
`choices` is a non-empty list whose first element is an object with an object `message`
that has a string `content`. -/
def payloadContent (m : GoMap) : Option String :=
  match m.index "choices" with
  | .array (.object choice0 :: _) =>
    match GoMap.index choice0 "message" with
    | .object message =>
      match GoMap.index message "content" with
      | .string c => some c
      | _ => none
    | _ => none
  | _ => none

/-- A line qualifies as the command when, trimmed, it is not empty and does not begin with
the fence token. -/
def isCommandLine (fence line : String) : Bool :=
  decide (strings.TrimSpace line ≠ "") && !strings.HasPrefix (strings.TrimSpace line) fence

/-- The response body `{"choices":[{"message":{"content":"…"}}]}`, with `content` (JSON
string syntax, escapes included) between the innermost quotes. -/
def exampleBody (content : String) : String :=
  "\x7b\"choices\":[\x7b\"message\":\x7b\"content\":\"" ++ content ++ "\"\x7d\x7d]\x7d"

/-- The commands handed to the shell, in order: the `bash -c command` events of a trace. -/
def shellCommands : List Event → List String
  | [] => []
  | .exec name args :: rest =>
    match args with
    | [flag, command] =>
      if name = "bash" ∧ flag = "-c" then command :: shellCommands rest
      else shellCommands rest
    | _ => shellCommands rest
  | _ :: rest => shellCommands rest

/-- The requests sent over the network, in order. -/
def httpRequests : List Event → List Request
  | [] => []
  | .http req :: rest => req :: httpRequests rest
  | _ :: rest => httpRequests rest

/-- A world with a stubbed completion endpoint: the key is `key`, every request is
answered with status `status` and body `body`, and every shell command ends as `run`. -/
def stubWorld (key body : String) (status : Int) (run : RunResult) : World :=
  { godotenvLoad := none
    getenv := fun k => if k = "DEEPSEEK_API_KEY" then key else ""
    unameOutput := ("Linux host 6.1.0 x86_64 GNU/Linux\n", none)
    getwd := ("/home/user", none)
    jsonMarshal := fun _ => .ok "\x7b\x7d"
    jsonUnmarshal := json.Unmarshal
    httpNewRequest := fun method url body => .ok ⟨method, url, [], body⟩
    httpDo := fun _ => .ok ⟨status, (body, none)⟩
    bashRun := fun _ => run
    logPrefix := "2024/01/01 00:00:00 " }

/-! ## Lemmas on strings -/

theorem len_pos_iff (s : String) : 0 < len s ↔ s ≠ "" := by
  obtain ⟨l⟩ := s
  cases l with
  | nil => simp [len, String.utf8ByteSize, String.utf8ByteSize.go]
  | cons c cs =>
    have hc := Char.utf8Size_pos c
    have hne : String.mk (c :: cs) ≠ "" := by
      intro h
      have := congrArg String.data h
      simp at this
    simp only [len, String.utf8ByteSize, String.utf8ByteSize.go, ne_eq, hne, not_false_eq_true,
      iff_true]
    omega

namespace strings

theorem genSplit_ne_nil (sep : List Char) (k : Nat) (s : List Char) : genSplit sep k s ≠ [] := by
  induction s generalizing k with
  | nil => simp [genSplit]
  | cons c cs ih =>
    cases k with
    | succ k => simpa [genSplit] using ih k
    | zero =>
      simp only [genSplit]
      split
      · simp
      · split <;> simp

/-- Splitting on a newline, at a newline. -/
theorem genSplit_nl_cons (cs : List Char) :
    genSplit ['\n'] 0 ('\n' :: cs) = [] :: genSplit ['\n'] 0 cs := by
  simp [genSplit, List.isPrefixOf]

/-- Splitting on a newline, at another character. -/
theorem genSplit_nl_cons_ne (c : Char) (cs : List Char) (hc : c ≠ '\n') :
    genSplit ['\n'] 0 (c :: cs) =
      (c :: (genSplit ['\n'] 0 cs).headD []) :: (genSplit ['\n'] 0 cs).tail := by
  have hne := genSplit_ne_nil ['\n'] 0 cs
  have hp : List.isPrefixOf ['\n'] (c :: cs) = false := by
    simp [List.isPrefixOf, Ne.symm hc]
  rw [genSplit, hp]
  cases h : genSplit ['\n'] 0 cs with
  | nil => exact absurd h hne
  | cons l ls => simp

/-- A text without a newline is one line. -/
theorem genSplit_nl_of_not_mem (l : List Char) (hl : '\n' ∉ l) : genSplit ['\n'] 0 l = [l] := by
  induction l with
  | nil => simp [genSplit]
  | cons c cs ih =>
    have hc : c ≠ '\n' := fun h => hl (by simp [h])
    have hcs : '\n' ∉ cs := fun h => hl (List.mem_cons_of_mem _ h)
    rw [genSplit_nl_cons_ne c cs hc, ih hcs]
    simp

/-- A first line ended by a newline is split off. -/
theorem genSplit_nl_line (l rest : List Char) (hl : '\n' ∉ l) :
    genSplit ['\n'] 0 (l ++ '\n' :: rest) = l :: genSplit ['\n'] 0 rest := by
  induction l with
  | nil => simpa using genSplit_nl_cons rest
  | cons c cs ih =>
    have hc : c ≠ '\n' := fun h => hl (by simp [h])
    have hcs : '\n' ∉ cs := fun h => hl (List.mem_cons_of_mem _ h)
    rw [List.cons_append, genSplit_nl_cons_ne c _ hc, ih hcs]
    simp

/-- No line of a split contains a newline, and every character of a line is one of the
text. -/
theorem genSplit_nl_mem (s l : List Char) (h : l ∈ genSplit ['\n'] 0 s) :
    '\n' ∉ l ∧ ∀ ch ∈ l, ch ∈ s := by
  induction s generalizing l with
  | nil =>
    simp [genSplit] at h
    subst h
    simp
  | cons c cs ih =>
    by_cases hc : c = '\n'
    · subst hc
      rw [genSplit_nl_cons] at h
      rcases List.mem_cons.1 h with h | h
      · subst h
        simp
      · obtain ⟨h1, h2⟩ := ih l h
        exact ⟨h1, fun ch hch => List.mem_cons_of_mem _ (h2 ch hch)⟩
    · rw [genSplit_nl_cons_ne c cs hc] at h
      have hne := genSplit_ne_nil ['\n'] 0 cs
      cases hs : genSplit ['\n'] 0 cs with
      | nil => exact absurd hs hne
      | cons x xs =>
        rw [hs] at h ih
        simp only [List.headD_cons, List.tail_cons, List.mem_cons] at h
        rcases h with h | h
        · subst h
          obtain ⟨h1, h2⟩ := ih x (by simp)
          refine ⟨?_, ?_⟩
          · intro hm
            rcases List.mem_cons.1 hm with hm | hm
            · exact hc hm.symm
            · exact h1 hm
          · intro ch hch
            rcases List.mem_cons.1 hch with hch | hch
            · simp [hch]
            · exact List.mem_cons_of_mem _ (h2 ch hch)
        · obtain ⟨h1, h2⟩ := ih l (by simp [h])
          exact ⟨h1, fun ch hch => List.mem_cons_of_mem _ (h2 ch hch)⟩

/-- Splitting `a ++ rest`: the complete lines of `a`, then the split of the last (open)
line of `a` followed by `rest`. -/
theorem genSplit_nl_append (a rest : List Char) :
    genSplit ['\n'] 0 (a ++ rest) =
      (genSplit ['\n'] 0 a).dropLast ++
        genSplit ['\n'] 0 ((genSplit ['\n'] 0 a).getLastD [] ++ rest) := by
  induction a with
  | nil => simp [genSplit]
  | cons c cs ih =>
    have hne := genSplit_ne_nil ['\n'] 0 cs
    by_cases hc : c = '\n'
    · subst hc
      rw [List.cons_append, genSplit_nl_cons, genSplit_nl_cons, ih]
      cases hs : genSplit ['\n'] 0 cs with
      | nil => exact absurd hs hne
      | cons x xs => simp [List.dropLast]
    · rw [List.cons_append, genSplit_nl_cons_ne c _ hc, genSplit_nl_cons_ne c cs hc, ih]
      cases hs : genSplit ['\n'] 0 cs with
      | nil => exact absurd hs hne
      | cons x xs =>
        cases xs with
        | nil =>
          simp only [List.dropLast_single, List.nil_append, List.headD_cons, List.tail_cons,
            List.getLastD_cons, List.getLastD_nil, List.cons_append]
          rw [genSplit_nl_cons_ne c _ hc]
        | cons y ys =>
          simp [List.dropLast]

theorem Split_nl (s : String) : Split s "\n" = (genSplit ['\n'] 0 s.data).map String.mk := by
  simp [Split]

end strings

namespace strings

theorem TrimSpace_data (s : String) :
    (TrimSpace s).data = (s.data.dropWhile unicode.IsSpace).rdropWhile unicode.IsSpace := rfl

theorem TrimSpace_eq_empty_iff (s : String) :
    TrimSpace s = "" ↔ ∀ ch ∈ s.data, unicode.IsSpace ch = true := by
  rw [String.ext_iff, TrimSpace_data]
  show List.rdropWhile _ _ = [] ↔ _
  rw [List.rdropWhile_eq_nil_iff]
  constructor
  · intro h ch hch
    by_contra hns
    have hmem : ch ∈ s.data.dropWhile unicode.IsSpace := by
      clear h
      generalize s.data = l at hch
      induction l with
      | nil => simp at hch
      | cons x xs ih =>
        rw [List.dropWhile_cons]
        split
        · rename_i hx
          rcases List.mem_cons.1 hch with h | h
          · exact absurd (h ▸ hx) hns
          · exact ih h
        · exact hch
    exact hns (h ch hmem)
  · intro h ch hch
    exact h ch ((List.dropWhile_sublist _).subset hch)

theorem TrimSpace_mem (s : String) (ch : Char) (h : ch ∈ (TrimSpace s).data) : ch ∈ s.data := by
  rw [TrimSpace_data] at h
  exact (List.dropWhile_sublist _).subset
    ((List.rdropWhile_prefix (p := unicode.IsSpace) _).subset h)

/-- White space in front of a text does not change its trimmed form. -/
theorem TrimSpace_append_left (a b : String) (ha : ∀ ch ∈ a.data, unicode.IsSpace ch = true) :
    TrimSpace (a ++ b) = TrimSpace b := by
  rw [String.ext_iff, TrimSpace_data, TrimSpace_data, String.data_append,
    List.dropWhile_append_of_pos ha]

/-- The trimmed form does not start with white space. -/
theorem TrimSpace_head (s : String) (ch : Char) (h : (TrimSpace s).data.head? = some ch) :
    unicode.IsSpace ch = false := by
  rw [TrimSpace_data] at h
  obtain ⟨t, ht⟩ :=
    List.rdropWhile_prefix (p := unicode.IsSpace) (s.data.dropWhile unicode.IsSpace)
  have h2 : (s.data.dropWhile unicode.IsSpace).head? = some ch := by
    rw [← ht]
    cases hr : List.rdropWhile unicode.IsSpace (List.dropWhile unicode.IsSpace s.data) with
    | nil => rw [hr] at h; simp at h
    | cons x xs => rw [hr] at h; simpa using h
  have := List.head?_dropWhile_not unicode.IsSpace s.data
  rw [h2] at this
  simpa using this

/-- The trimmed form does not end with white space. -/
theorem TrimSpace_getLast (s : String) (ch : Char) (h : (TrimSpace s).data.getLast? = some ch) :
    unicode.IsSpace ch = false := by
  rw [TrimSpace_data] at h
  have hne : List.rdropWhile unicode.IsSpace (List.dropWhile unicode.IsSpace s.data) ≠ [] := by
    intro h0
    rw [h0] at h
    simp at h
  have := List.rdropWhile_last_not unicode.IsSpace _ hne
  rw [List.getLast?_eq_getLast _ hne] at h
  simp only [Option.some.injEq] at h
  rw [h] at this
  simpa using this

end strings

theorem isCommandLine_iff (line : String) :
    (decide (len (strings.TrimSpace line) > 0) &&
      !strings.HasPrefix (strings.TrimSpace line) "```bash") = isCommandLine "```bash" line := by
  unfold isCommandLine
  congr 1
  have := len_pos_iff (strings.TrimSpace line)
  by_cases h : strings.TrimSpace line = "" <;> simp_all

theorem scan_cons (line : String) (rest : List String) :
    extractCommand.scan (line :: rest) =
      if isCommandLine "```bash" line then (strings.TrimSpace line, none)
      else extractCommand.scan rest := by
  rw [extractCommand.scan]
  simp only [isCommandLine_iff]

/-- The loop returns the first qualifying line, trimmed. -/
theorem scan_first (pre : List String) (l : String) (post : List String)
    (hpre : ∀ x ∈ pre, isCommandLine "```bash" x = false)
    (hl : isCommandLine "```bash" l = true) :
    extractCommand.scan (pre ++ l :: post) = (strings.TrimSpace l, none) := by
  induction pre with
  | nil => simp [scan_cons, hl]
  | cons x xs ih =>
    have hx := hpre x (by simp)
    rw [List.cons_append, scan_cons, hx]
    simpa using ih (fun y hy => hpre y (List.mem_cons_of_mem _ hy))

/-- The loop fails when no line qualifies. -/
theorem scan_none (lines : List String) (h : ∀ x ∈ lines, isCommandLine "```bash" x = false) :
    extractCommand.scan lines = ("", some (.errorsNew "no valid command found in response")) := by
  induction lines with
  | nil => rfl
  | cons x xs ih =>
    rw [scan_cons, h x (by simp)]
    simpa using ih (fun y hy => h y (List.mem_cons_of_mem _ hy))

/-- Either no line qualifies, or the lines split at the first qualifying one. -/
theorem lines_cases (lines : List String) :
    (∀ x ∈ lines, isCommandLine "```bash" x = false) ∨
      ∃ pre l post, lines = pre ++ l :: post ∧
        (∀ x ∈ pre, isCommandLine "```bash" x = false) ∧ isCommandLine "```bash" l = true := by
  induction lines with
  | nil => left; simp
  | cons x xs ih =>
    by_cases hx : isCommandLine "```bash" x = true
    · right
      exact ⟨[], x, xs, rfl, by simp, hx⟩
    · rcases ih with h | ⟨pre, l, post, h1, h2, h3⟩
      · left
        intro y hy
        rcases List.mem_cons.1 hy with hy | hy
        · subst hy; simpa using hx
        · exact h y hy
      · right
        refine ⟨x :: pre, l, post, by simp [h1], ?_, h3⟩
        intro y hy
        rcases List.mem_cons.1 hy with hy | hy
        · subst hy; simpa using hx
        · exact h2 y hy

/-- On a payload that carries content `c`, `extractCommand` is the loop over the lines of
`c`. -/
theorem extractCommand_of_content (unm : String → Except String GoMap) (resp : String)
    (m : GoMap) (c : String) (hu : unm resp = .ok m) (hc : payloadContent m = some c) :
    extractCommand unm resp = .ret (extractCommand.scan (strings.Split c "\n")) := by
  unfold payloadContent at hc
  unfold extractCommand
  rw [hu]
  split at hc
  · rename_i choice0 rest hch
    split at hc
    · rename_i message hmsg
      split at hc
      · rename_i c0 hcont
        simp only [Option.some.injEq] at hc
        subst hc
        simp [hch, JVal.asSlice, JVal.mustMap, JVal.asMap, hmsg, hcont, JVal.asString]
      · simp at hc
    · simp at hc
  · simp at hc

theorem isCommandLine_eq_false_iff (fence l : String) :
    isCommandLine fence l = false ↔
      strings.TrimSpace l = "" ∨ strings.HasPrefix (strings.TrimSpace l) fence = true := by
  unfold isCommandLine
  by_cases h : strings.TrimSpace l = "" <;> simp [h]

theorem isCommandLine_eq_true_iff (fence l : String) :
    isCommandLine fence l = true ↔
      strings.TrimSpace l ≠ "" ∧ strings.HasPrefix (strings.TrimSpace l) fence = false := by
  unfold isCommandLine
  by_cases h : strings.TrimSpace l = "" <;> simp [h]

/-- A successful loop returns the trimmed form of a qualifying line. -/
theorem scan_ok_inv (lines : List String) (cmd : String)
    (h : extractCommand.scan lines = (cmd, none)) :
    ∃ l ∈ lines, isCommandLine "```bash" l = true ∧ cmd = strings.TrimSpace l := by
  rcases lines_cases lines with hnone | ⟨pre, l, post, h1, h2, h3⟩
  · rw [scan_none lines hnone] at h
    simp at h
  · subst h1
    rw [scan_first pre l post h2 h3] at h
    simp only [Prod.mk.injEq, and_true] at h
    exact ⟨l, by simp, h3, h.symm⟩

/-- A successful `extractCommand` went through the content of the first choice. -/
theorem extractCommand_ok_inv (unm : String → Except String GoMap) (resp cmd : String)
    (h : extractCommand unm resp = .ret (cmd, none)) :
    ∃ m c, unm resp = .ok m ∧ payloadContent m = some c ∧
      extractCommand.scan (strings.Split c "\n") = (cmd, none) := by
  unfold extractCommand at h
  cases hu : unm resp with
  | error e => rw [hu] at h; simp at h
  | ok m =>
    rw [hu] at h
    refine ⟨m, ?_⟩
    unfold payloadContent
    cases hch : m.index "choices" with
    | array xs =>
      cases xs with
      | nil => simp [hch, JVal.asSlice] at h
      | cons choice0 rest =>
        cases choice0 with
        | object fc =>
          cases hmsg : GoMap.index fc "message" with
          | object msg =>
            cases hcont : GoMap.index msg "content" with
            | string c =>
              simp only [hch, JVal.asSlice, JVal.mustMap, JVal.asMap, hmsg, hcont,
                JVal.asString, Run.ret.injEq] at h
              exact ⟨c, rfl, by simp [hmsg, hcont], h⟩
            | _ => simp [hch, JVal.asSlice, JVal.mustMap, JVal.asMap, hmsg, hcont,
                JVal.asString] at h
          | _ => simp [hch, JVal.asSlice, JVal.mustMap, JVal.asMap, hmsg] at h
        | _ => simp [hch, JVal.asSlice, JVal.mustMap, JVal.asMap] at h
    | _ => simp [hch, JVal.asSlice] at h

theorem getLastD_mem {α : Type} (l : List α) (d : α) (h : l ≠ []) : l.getLastD d ∈ l := by
  cases l with
  | nil => exact absurd rfl h
  | cons x xs =>
    rw [List.getLastD_cons, ← List.getLast_eq_getLastD x xs h]
    exact List.getLast_mem h

theorem getLastD_map {α β : Type} (f : α → β) (l : List α) (d : α) :
    (l.map f).getLastD (f d) = f (l.getLastD d) := by
  induction l generalizing d with
  | nil => rfl
  | cons x xs ih =>
    rw [List.map_cons, List.getLastD_cons, List.getLastD_cons]
    exact ih x

namespace fmt

theorem Sprintf.go_cons_ne (c : Char) (cs : List Char) (args : List Arg) (hc : c ≠ '%') :
    Sprintf.go (c :: cs) args = c :: Sprintf.go cs args := by
  rw [Sprintf.go.eq_def]
  simp [hc]

/-- Literal text of the format is copied. -/
theorem Sprintf.go_literal (l rest : List Char) (args : List Arg) (hl : '%' ∉ l) :
    Sprintf.go (l ++ rest) args = l ++ Sprintf.go rest args := by
  induction l with
  | nil => rfl
  | cons c cs ih =>
    have hc : c ≠ '%' := fun h => hl (by simp [h])
    have hcs : '%' ∉ cs := fun h => hl (List.mem_cons_of_mem _ h)
    rw [List.cons_append, Sprintf.go_cons_ne _ _ _ hc, ih hcs, List.cons_append]

/-- A verb that accepts its operand is replaced by the operand's text. -/
theorem Sprintf.go_verb (v : Char) (rest : List Char) (a : Arg) (as : List Arg)
    (hv : v ≠ '%') (ha : accepts v a = true) :
    Sprintf.go ('%' :: v :: rest) (a :: as) = a.text.data ++ Sprintf.go rest as := by
  rw [Sprintf.go.eq_def]
  simp [hv, render, ha]

theorem Sprintf.go_s_string (rest : List Char) (s : String) (as : List Arg) :
    Sprintf.go ('%' :: 's' :: rest) (.string s :: as) = s.data ++ Sprintf.go rest as :=
  Sprintf.go_verb 's' rest (.string s) as (by decide) (by simp [accepts])

theorem Sprintf.go_s_bytes (rest : List Char) (s : String) (as : List Arg) :
    Sprintf.go ('%' :: 's' :: rest) (.bytes s :: as) = s.data ++ Sprintf.go rest as :=
  Sprintf.go_verb 's' rest (.bytes s) as (by decide) (by simp [accepts])

theorem Sprintf.go_d_int (rest : List Char) (n : Int) (as : List Arg) :
    Sprintf.go ('%' :: 'd' :: rest) (.int n :: as) = (decimal n).data ++ Sprintf.go rest as :=
  Sprintf.go_verb 'd' rest (.int n) as (by decide) (by simp [accepts])

/-- The text of the error `sendRequest` makes for a status other than 200. -/
theorem Sprintf_status (s : Int) (b : String) :
    Sprintf "API returned status %d: %s" [.int s, .bytes b] =
      "API returned status " ++ decimal s ++ ": " ++ b := by
  have hfmt : "API returned status %d: %s".data =
      "API returned status ".data ++ ('%' :: 'd' :: (": ".data ++ ('%' :: 's' :: []))) := by
    decide
  unfold Sprintf
  rw [String.ext_iff]
  show Sprintf.go _ _ = _
  rw [hfmt, Sprintf.go_literal _ _ _ (by decide), Sprintf.go_d_int,
    Sprintf.go_literal _ _ _ (by decide), Sprintf.go_s_bytes]
  simp only [String.data_append, Sprintf.go, List.append_assoc, List.append_nil]

end fmt

/-! ## The prompt -/

/-- The prompt is the template with the three operands copied in. -/
theorem main_prompt_eq (w : World) (osArgs : List String) :
    main.prompt w osArgs =
      "当前系统信息: " ++ strings.TrimSpace w.unameOutput.1 ++ ", 当前目录: " ++ w.getwd.1 ++
        ", 请帮我用bash命令完成以下任务:" ++ "'" ++ strings.Join (osArgs.drop 1) " " ++ "'" ++
        "。1.仅输出代码。 2.不需要解释。" := by
  have hfmt : "当前系统信息: %s, 当前目录: %s, 请帮我用bash命令完成以下任务:'%s'。1.仅输出代码。 2.不需要解释。".data =
      "当前系统信息: ".data ++ ('%' :: 's' :: (", 当前目录: ".data ++ ('%' :: 's' ::
        (", 请帮我用bash命令完成以下任务:'".data ++ ('%' :: 's' ::
          ("'。1.仅输出代码。 2.不需要解释。".data ++ [])))))) := by
    decide
  unfold main.prompt fmt.Sprintf
  rw [String.ext_iff]
  show fmt.Sprintf.go _ _ = _
  rw [hfmt]
  rw [fmt.Sprintf.go_literal _ _ _ (by decide), fmt.Sprintf.go_s_string,
    fmt.Sprintf.go_literal _ _ _ (by decide), fmt.Sprintf.go_s_string,
    fmt.Sprintf.go_literal _ _ _ (by decide), fmt.Sprintf.go_s_string,
    fmt.Sprintf.go_literal _ _ _ (by decide)]
  simp only [String.data_append, fmt.Arg.text, fmt.Sprintf.go, List.append_assoc,
    List.append_nil]
  rfl

/-- C8: for all program arguments, OS information and working directory, the prompt `main`
builds ends with the instruction (the arguments joined by single spaces), copied unchanged
between single quotes, followed by one fixed suffix. -/
theorem main_prompt_quotes_instruction (w : World) (program : String) (args : List String) :
    main.prompt w (program :: args) =
      ("当前系统信息: " ++ strings.TrimSpace w.unameOutput.1 ++ ", 当前目录: " ++ w.getwd.1 ++
        ", 请帮我用bash命令完成以下任务:") ++ "'" ++ strings.Join args " " ++ "'" ++
        "。1.仅输出代码。 2.不需要解释。" := by
  rw [main_prompt_eq]
  simp [String.append_assoc]

/-! ## Claims on `extractCommand` -/

/-- C1 (amended): on a response whose first choice carries content `c`, `extractCommand`
succeeds exactly when some line of `c`, trimmed, is not blank and does not begin with the
token "```bash"; it then returns the first such line, trimmed; a line that begins with
"```bash" is never returned. -/
theorem extractCommand_first_command_line (unm : String → Except String GoMap)
    (resp : String) (m : GoMap) (c : String)
    (hu : unm resp = .ok m) (hc : payloadContent m = some c) :
    ((∃ cmd, extractCommand unm resp = .ret (cmd, none)) ↔
        ∃ l ∈ strings.Split c "\n", isCommandLine "```bash" l = true) ∧
      (∀ pre l post, strings.Split c "\n" = pre ++ l :: post →
        (∀ x ∈ pre, isCommandLine "```bash" x = false) → isCommandLine "```bash" l = true →
        extractCommand unm resp = .ret (strings.TrimSpace l, none)) ∧
      (∀ cmd, extractCommand unm resp = .ret (cmd, none) →
        strings.HasPrefix cmd "```bash" = false) := by
  have hrun := extractCommand_of_content unm resp m c hu hc
  refine ⟨⟨?_, ?_⟩, ?_, ?_⟩
  · rintro ⟨cmd, h⟩
    rw [hrun, Run.ret.injEq] at h
    obtain ⟨l, hl, hq, -⟩ := scan_ok_inv _ cmd h
    exact ⟨l, hl, hq⟩
  · rintro ⟨l, hl, hq⟩
    rcases lines_cases (strings.Split c "\n") with hnone | ⟨pre, l0, post, h1, h2, h3⟩
    · rw [hnone l hl] at hq
      exact absurd hq (by simp)
    · exact ⟨strings.TrimSpace l0, by rw [hrun, h1, scan_first pre l0 post h2 h3]⟩
  · intro pre l post h1 h2 h3
    rw [hrun, h1, scan_first pre l post h2 h3]
  · intro cmd h
    rw [hrun, Run.ret.injEq] at h
    obtain ⟨l, -, hq, rfl⟩ := scan_ok_inv _ cmd h
    exact ((isCommandLine_eq_true_iff _ l).1 hq).2

/-- C1, witness: the body of the specification's example, whose content is a "```bash"
fence, a command and a closing fence. -/
theorem extractCommand_first_command_line_witness :
    extractCommand json.Unmarshal
      (exampleBody "```bash\\nls -la\\n```") =
        .ret ("ls -la", none) :=
  (extractCommand_first_command_line json.Unmarshal
    (exampleBody "```bash\\nls -la\\n```")
    [("choices", .array [.object [("message", .object [("content",
      .string "```bash\nls -la\n```")])]])]
    "```bash\nls -la\n```" (by rfl) (by rfl)).2.1 ["```bash"] "ls -la" ["```"]
    (by decide) (by decide) (by decide)

/-- C1, as stated, fails: a fence line that is not a "```bash" line is returned as the
command. On content "```", "ls -la", "```" the code returns the line "```", where the
claim promises the first line that does not begin with three backticks, "ls -la"; on
content "```sh", "echo hi" it returns "```sh". -/
theorem extractCommand_returns_fence_line :
    (json.Unmarshal (exampleBody "```\\nls -la\\n```")
        ).toOption.bind payloadContent = some "```\nls -la\n```" ∧
      strings.Split "```\nls -la\n```" "\n" = ["```", "ls -la", "```"] ∧
      isCommandLine "```" "```" = false ∧ isCommandLine "```" "ls -la" = true ∧
      strings.HasPrefix "```" "```" = true ∧ strings.HasPrefix "```sh" "```" = true ∧
      extractCommand json.Unmarshal
        (exampleBody "```\\nls -la\\n```") =
          .ret ("```", none) ∧
      extractCommand json.Unmarshal
        (exampleBody "```\\nls -la\\n```") ≠
          .ret ("ls -la", none) ∧
      extractCommand json.Unmarshal
        (exampleBody "```sh\\necho hi") =
          .ret ("```sh", none) := by
  decide

/-- C2 (amended): let the content be `P ++ L ++ "\n" ++ S`, where every line of `P` is,
trimmed, blank or begins with "```bash", the last line of `P` (the text after its last
newline; all of `P` when it has none) is blank after trimming, as it is when `P` is empty
or ends with a newline, and `L` is one line that, trimmed, is not empty and does not begin
with "```bash". Then `extractCommand` returns the trimmed `L`, whatever `S` is. -/
theorem extractCommand_stops_at_first_match (unm : String → Except String GoMap)
    (resp : String) (m : GoMap) (P L S : String)
    (hu : unm resp = .ok m) (hc : payloadContent m = some (P ++ L ++ "\n" ++ S))
    (hP : ∀ l ∈ strings.Split P "\n", isCommandLine "```bash" l = false)
    (hlast : strings.TrimSpace ((strings.Split P "\n").getLastD "") = "")
    (hL : '\n' ∉ L.data) (hq : isCommandLine "```bash" L = true) :
    extractCommand unm resp = .ret (strings.TrimSpace L, none) := by
  rw [extractCommand_of_content unm resp m _ hu hc, strings.Split_nl]
  have hdata : (P ++ L ++ "\n" ++ S).data = P.data ++ (L.data ++ '\n' :: S.data) := by
    simp [String.data_append]
  rw [hdata, strings.genSplit_nl_append]
  have hne := strings.genSplit_ne_nil ['\n'] 0 P.data
  have hlastmem : (strings.genSplit ['\n'] 0 P.data).getLastD [] ∈
      strings.genSplit ['\n'] 0 P.data := getLastD_mem _ _ hne
  have hnl : '\n' ∉ (strings.genSplit ['\n'] 0 P.data).getLastD [] ++ L.data := by
    intro h
    rcases List.mem_append.1 h with h | h
    · exact (strings.genSplit_nl_mem _ _ hlastmem).1 h
    · exact hL h
  rw [← List.append_assoc, strings.genSplit_nl_line _ _ hnl, List.map_append, List.map_cons]
  have hlast2 : (strings.Split P "\n").getLastD "" =
      String.mk ((strings.genSplit ['\n'] 0 P.data).getLastD []) := by
    rw [strings.Split_nl]
    exact getLastD_map String.mk _ []
  rw [hlast2, strings.TrimSpace_eq_empty_iff] at hlast
  have htrim : strings.TrimSpace
      (String.mk ((strings.genSplit ['\n'] 0 P.data).getLastD [] ++ L.data)) =
        strings.TrimSpace L := by
    have := strings.TrimSpace_append_left
      (String.mk ((strings.genSplit ['\n'] 0 P.data).getLastD [])) L hlast
    exact this
  have hq2 : isCommandLine "```bash"
      (String.mk ((strings.genSplit ['\n'] 0 P.data).getLastD [] ++ L.data)) = true := by
    unfold isCommandLine at hq ⊢
    rw [htrim]
    exact hq
  rw [scan_first _ _ _ ?_ hq2, htrim]
  intro x hx
  apply hP
  rw [strings.Split_nl]
  obtain ⟨y, hy, rfl⟩ := List.mem_map.1 hx
  exact List.mem_map.2 ⟨y, List.mem_of_mem_dropLast hy, rfl⟩

/-- C2, witness: the two contents of the specification, a "```bash" fence before `ls -la`
and two empty lines before `rm -rf /tmp/x`. -/
theorem extractCommand_stops_at_first_match_witness :
    extractCommand json.Unmarshal
        (exampleBody "```bash\\nls -la\\n```") =
          .ret ("ls -la", none) ∧
      extractCommand json.Unmarshal
        (exampleBody "\\n\\nrm -rf /tmp/x\\nsome trailing comment\\n") =
          .ret ("rm -rf /tmp/x", none) :=
  ⟨extractCommand_stops_at_first_match json.Unmarshal
      (exampleBody "```bash\\nls -la\\n```")
      [("choices", .array [.object [("message", .object [("content",
        .string "```bash\nls -la\n```")])]])]
      "```bash\n" "ls -la" "```" (by rfl) (by decide) (by decide) (by decide) (by decide)
      (by decide),
    extractCommand_stops_at_first_match json.Unmarshal
      (exampleBody "\\n\\nrm -rf /tmp/x\\nsome trailing comment\\n")
      [("choices", .array [.object [("message", .object [("content",
        .string "\n\nrm -rf /tmp/x\nsome trailing comment\n")])]])]
      "\n\n" "rm -rf /tmp/x" "some trailing comment\n" (by rfl) (by decide) (by decide)
      (by decide) (by decide) (by decide)⟩

/-- C2, as stated, fails when `P` ends in an open fence line. With `P` the one line
"```bash", `L` the line `ls` and `S` empty, every line of `P` begins with "```bash" and
`L` qualifies, yet the content is the single line "```bashls": it is skipped and no
command is found; with `S` the line `pwd` the result is `pwd`, so it depends on `S`. -/
theorem extractCommand_open_fence_line_swallows_command :
    (∀ l ∈ strings.Split "```bash" "\n", isCommandLine "```bash" l = false) ∧
      '\n' ∉ "ls".data ∧ isCommandLine "```bash" "ls" = true ∧
      (json.Unmarshal (exampleBody "```bashls\\n")
        ).toOption.bind payloadContent = some ("```bash" ++ "ls" ++ "\n" ++ "") ∧
      extractCommand json.Unmarshal
        (exampleBody "```bashls\\n") =
          .ret ("", some (.errorsNew "no valid command found in response")) ∧
      extractCommand json.Unmarshal
        (exampleBody "```bashls\\n") ≠
          .ret (strings.TrimSpace "ls", none) ∧
      (json.Unmarshal (exampleBody "```bashls\\npwd")
        ).toOption.bind payloadContent = some ("```bash" ++ "ls" ++ "\n" ++ "pwd") ∧
      extractCommand json.Unmarshal
        (exampleBody "```bashls\\npwd") =
          .ret ("pwd", none) := by
  decide

/-- C3: `extractCommand` panics, instead of returning an error, when the first choice has
no `message` field, when its `message` is not an object, and when the first element of
`choices` is not an object; it returns an error when `message` is an object without a
string `content`. The bodies are `{"choices":[{}]}`, `{"choices":[{"message":"hi"}]}`,
`{"choices":[1]}`, `{"choices":[{"message":{}}]}` and
`{"choices":[{"message":{"content":7}}]}`; on the first, `main` ends by the panic, with
exit code 2. -/
theorem extractCommand_panics_on_malformed_choice :
    extractCommand json.Unmarshal "\x7b\"choices\":[\x7b\x7d]\x7d" =
        .panic "interface conversion: interface {} is nil, not map[string]interface {}" ∧
      extractCommand json.Unmarshal "\x7b\"choices\":[\x7b\"message\":\"hi\"\x7d]\x7d" =
        .panic "interface conversion: interface {} is string, not map[string]interface {}" ∧
      extractCommand json.Unmarshal "\x7b\"choices\":[1]\x7d" =
        .panic "interface conversion: interface {} is float64, not map[string]interface {}" ∧
      extractCommand json.Unmarshal "\x7b\"choices\":[\x7b\"message\":\x7b\x7d\x7d]\x7d" =
        .ret ("", some (.errorsNew "failed to extract content from response")) ∧
      extractCommand json.Unmarshal "\x7b\"choices\":[\x7b\"message\":\x7b\"content\":7\x7d\x7d]\x7d" =
        .ret ("", some (.errorsNew "failed to extract content from response")) ∧
      (main (stubWorld "k" "\x7b\"choices\":[\x7b\x7d]\x7d" 200 (.exited 0))
        ["ray", "list", "files"]).code = 2 := by
  decide

/-- C4: when the decoded object has no `choices`, or `choices` is not a list, or it is the
empty list, `extractCommand` returns the empty string and the error "no choices found in
response", whatever else the object holds. -/
theorem extractCommand_no_choices (unm : String → Except String GoMap) (resp : String)
    (m : GoMap) (hu : unm resp = .ok m)
    (hch : m.lookup "choices" = none ∨ (∃ v, m.lookup "choices" = some v ∧ v.asSlice = none) ∨
      m.lookup "choices" = some (.array [])) :
    extractCommand unm resp = .ret ("", some (.errorsNew "no choices found in response")) := by
  unfold extractCommand
  rw [hu]
  rcases hch with h | ⟨v, h, hv⟩ | h
  · simp [GoMap.index, h, JVal.asSlice]
  · simp [GoMap.index, h, hv]
  · simp [GoMap.index, h, JVal.asSlice]

/-- C4, witness: an empty list, an absent field and a field that is a string, each beside
other fields. -/
theorem extractCommand_no_choices_witness :
    extractCommand json.Unmarshal "\x7b\"id\":\"x\",\"choices\":[]\x7d" =
        .ret ("", some (.errorsNew "no choices found in response")) ∧
      extractCommand json.Unmarshal "\x7b\"message\":\x7b\"content\":\"ls\"\x7d\x7d" =
        .ret ("", some (.errorsNew "no choices found in response")) ∧
      extractCommand json.Unmarshal "\x7b\"choices\":\"ls\",\"n\":1\x7d" =
        .ret ("", some (.errorsNew "no choices found in response")) :=
  ⟨extractCommand_no_choices json.Unmarshal "\x7b\"id\":\"x\",\"choices\":[]\x7d"
      [("choices", .array []), ("id", .string "x")] (by rfl) (Or.inr (Or.inr (by rfl))),
    extractCommand_no_choices json.Unmarshal "\x7b\"message\":\x7b\"content\":\"ls\"\x7d\x7d"
      [("message", .object [("content", .string "ls")])] (by rfl) (Or.inl (by rfl)),
    extractCommand_no_choices json.Unmarshal "\x7b\"choices\":\"ls\",\"n\":1\x7d"
      [("n", .number "1"), ("choices", .string "ls")] (by rfl)
      (Or.inr (Or.inl ⟨.string "ls", by rfl, by rfl⟩))⟩

/-- C9: on a response whose first choice carries content `c`, `extractCommand` returns the
error "no valid command found in response" exactly when every line of `c` is, trimmed,
empty or begins with "```bash"; so it does whenever `c` is empty or holds only white space
and newlines. -/
theorem extractCommand_no_valid_command_iff (unm : String → Except String GoMap)
    (resp : String) (m : GoMap) (c : String)
    (hu : unm resp = .ok m) (hc : payloadContent m = some c) :
    (extractCommand unm resp =
        .ret ("", some (.errorsNew "no valid command found in response")) ↔
      ∀ l ∈ strings.Split c "\n", strings.TrimSpace l = "" ∨
        strings.HasPrefix (strings.TrimSpace l) "```bash" = true) ∧
      ((∀ ch ∈ c.data, unicode.IsSpace ch = true) →
        extractCommand unm resp =
          .ret ("", some (.errorsNew "no valid command found in response"))) := by
  have hrun := extractCommand_of_content unm resp m c hu hc
  have hback : (∀ l ∈ strings.Split c "\n", strings.TrimSpace l = "" ∨
      strings.HasPrefix (strings.TrimSpace l) "```bash" = true) →
      extractCommand unm resp =
        .ret ("", some (.errorsNew "no valid command found in response")) := by
    intro h
    rw [hrun, scan_none _ (fun l hl => (isCommandLine_eq_false_iff _ l).2 (h l hl))]
  refine ⟨⟨?_, hback⟩, ?_⟩
  · intro h l hl
    rw [hrun, Run.ret.injEq] at h
    rcases lines_cases (strings.Split c "\n") with hnone | ⟨pre, l0, post, h1, h2, h3⟩
    · exact (isCommandLine_eq_false_iff _ l).1 (hnone l hl)
    · rw [h1, scan_first pre l0 post h2 h3] at h
      simp at h
  · intro hsp
    apply hback
    intro l hl
    left
    rw [strings.Split_nl] at hl
    obtain ⟨y, hy, rfl⟩ := List.mem_map.1 hl
    rw [strings.TrimSpace_eq_empty_iff]
    intro ch hch
    exact hsp ch ((strings.genSplit_nl_mem _ _ hy).2 ch hch)

/-- C9, witness: empty content, and content of blanks, newlines and a "```bash" line. -/
theorem extractCommand_no_valid_command_iff_witness :
    extractCommand json.Unmarshal (exampleBody "") =
        .ret ("", some (.errorsNew "no valid command found in response")) ∧
      extractCommand json.Unmarshal
        (exampleBody " \\n\\t\\n```bash\\n") =
          .ret ("", some (.errorsNew "no valid command found in response")) :=
  ⟨(extractCommand_no_valid_command_iff json.Unmarshal
      (exampleBody "")
      [("choices", .array [.object [("message", .object [("content", .string "")])]])]
      "" (by rfl) (by rfl)).2 (by decide),
    (extractCommand_no_valid_command_iff json.Unmarshal
      (exampleBody " \\n\\t\\n```bash\\n")
      [("choices", .array [.object [("message", .object [("content",
        .string " \n\t\n```bash\n")])]])]
      " \n\t\n```bash\n" (by rfl) (by rfl)).1.2 (by decide)⟩

/-- What a successful `extractCommand` returns: a non-empty line without white space at
either end, without a newline and without a leading "```bash", the trimmed form of a line
of the content. -/
theorem extractCommand_ok_shape (unm : String → Except String GoMap) (resp cmd : String)
    (h : extractCommand unm resp = .ret (cmd, none)) :
    cmd ≠ "" ∧ (∀ ch, cmd.data.head? = some ch → unicode.IsSpace ch = false) ∧
      (∀ ch, cmd.data.getLast? = some ch → unicode.IsSpace ch = false) ∧
      '\n' ∉ cmd.data ∧ strings.HasPrefix cmd "```bash" = false ∧
      ∃ m c l, unm resp = .ok m ∧ payloadContent m = some c ∧ l ∈ strings.Split c "\n" ∧
        cmd = strings.TrimSpace l := by
  obtain ⟨m, c, hu, hc, hs⟩ := extractCommand_ok_inv unm resp cmd h
  obtain ⟨l, hl, hq, rfl⟩ := scan_ok_inv _ cmd hs
  obtain ⟨hne, hpre⟩ := (isCommandLine_eq_true_iff _ l).1 hq
  refine ⟨hne, strings.TrimSpace_head l, strings.TrimSpace_getLast l, ?_, hpre,
    m, c, l, hu, hc, hl, rfl⟩
  intro hnl
  have hmem := strings.TrimSpace_mem l _ hnl
  rw [strings.Split_nl] at hl
  obtain ⟨y, hy, rfl⟩ := List.mem_map.1 hl
  exact (strings.genSplit_nl_mem _ _ hy).1 hmem

/-- The trace of `sendRequest` is the given one, with at most one request added. -/
theorem sendRequest_trace (w : World) (apiConfig : APIConfig) (prompt : String)
    (trace : List Event) :
    (sendRequest w apiConfig prompt trace).2 = trace ∨
      ∃ req, (sendRequest w apiConfig prompt trace).2 = trace ++ [.http req] := by
  unfold sendRequest
  split
  · left; rfl
  · split
    · left; rfl
    · split
      · left; rfl
      · right
        rename_i req _
        refine ⟨sendRequest.headers apiConfig req, ?_⟩
        dsimp only
        split
        · rfl
        · split
          · rfl
          · split <;> rfl

/-- Each shell command in the trace of `main` is a command `extractCommand` returned. -/
theorem main_bash_inv (w : World) (osArgs : List String) (c : String)
    (h : Event.exec "bash" ["-c", c] ∈ (main w osArgs).trace) :
    ∃ resp, extractCommand w.jsonUnmarshal resp = .ret (c, none) := by
  unfold main at h
  split at h
  · simp [Println] at h
  · have htr := sendRequest_trace w (deepseekAPI w) (main.prompt w osArgs)
      [Event.exec "uname" ["-a"]]
    have hnot : ∀ tr, tr = (sendRequest w (deepseekAPI w) (main.prompt w osArgs)
        [Event.exec "uname" ["-a"]]).2 → Event.exec "bash" ["-c", c] ∉ tr := by
      intro tr htr2 hmem
      rw [htr2] at hmem
      rcases htr with h1 | ⟨req, h1⟩ <;> rw [h1] at hmem <;> simp at hmem
    dsimp only at h
    split at h
    · rename_i x err tr hs
      have := hnot tr (by rw [hs])
      simp only [List.mem_append, List.mem_singleton, reduceCtorEq, or_false] at h
      exact absurd h this
    · rename_i x response tr hs
      have hn := hnot tr (by rw [hs])
      split at h
      · simp only [List.mem_append, List.mem_singleton, reduceCtorEq, or_false] at h
        exact absurd h hn
      · simp only [List.mem_append, List.mem_singleton, reduceCtorEq, or_false] at h
        exact absurd h hn
      · rename_i y cmd hx
        refine ⟨response, ?_⟩
        have hmem : Event.exec "bash" ["-c", c] ∈
            (executeCommand w cmd tr).2 := by
          split at h
          · rename_i z e tr2 he
            simp only [List.mem_append, List.mem_singleton, reduceCtorEq, or_false] at h
            rw [he]; exact h
          · rename_i z tr2 he
            rw [he]; exact h
        simp only [executeCommand, Println, List.mem_append, List.mem_cons, reduceCtorEq,
          List.mem_singleton, Event.exec.injEq, true_and, List.cons.injEq, and_true,
          List.not_mem_nil, or_false, false_or] at hmem
        rcases hmem with hmem | hmem
        · exact absurd hmem hn
        · rw [hmem]; exact hx

/-! ## Claims on `sendRequest` and `main` -/

/-- C6: with an empty API key `sendRequest` returns the empty string and the error "API key
is missing. Please check your .env file or environment variables.", and the trace of
effects is the one it was given; with a non-empty key it never returns that error. -/
theorem sendRequest_missing_key (w : World) (apiConfig : APIConfig) (prompt : String)
    (trace : List Event) :
    (apiConfig.APIKey = "" →
        sendRequest w apiConfig prompt trace = (("", some (.errorsNew
          "API key is missing. Please check your .env file or environment variables.")),
            trace)) ∧
      (apiConfig.APIKey ≠ "" →
        (sendRequest w apiConfig prompt trace).1.2 ≠ some (.errorsNew
          "API key is missing. Please check your .env file or environment variables.")) := by
  refine ⟨fun h => by simp [sendRequest, h], fun h => ?_⟩
  unfold sendRequest
  rw [if_neg h]
  split
  · simp
  · split
    · simp
    · dsimp only
      split
      · simp
      · split
        · rw [fmt.Sprintf_status]
          intro heq
          simp only [Option.some.injEq, GoError.errorsNew.injEq] at heq
          have h5 := congrArg (fun s => s.data.take 5) heq
          simp [List.append_assoc] at h5
        · split <;> simp

/-- C6, witness: a provider without a key in a world whose endpoint would answer; no
request is recorded. With the key `k` the same call does send a request. -/
theorem sendRequest_missing_key_witness :
    sendRequest (stubWorld "" "\x7b\x7d" 200 (.exited 0))
        ⟨"deepseek", "https://api.deepseek.com/chat/completions", ""⟩ "list files" [] =
      (("", some (.errorsNew
        "API key is missing. Please check your .env file or environment variables.")), []) ∧
      httpRequests (sendRequest (stubWorld "k" "\x7b\x7d" 200 (.exited 0))
        ⟨"deepseek", "https://api.deepseek.com/chat/completions", "k"⟩ "list files" []).2 =
        [⟨"POST", "https://api.deepseek.com/chat/completions",
          [("Content-Type", "application/json"), ("Accept", "application/json"),
            ("Authorization", "Bearer k")], "\x7b\x7d"⟩] :=
  ⟨(sendRequest_missing_key (stubWorld "" "\x7b\x7d" 200 (.exited 0))
      ⟨"deepseek", "https://api.deepseek.com/chat/completions", ""⟩ "list files" []).1 rfl,
    by decide⟩

/-- C7: with a non-empty key and an exchange that completes with status `s` and body `b`,
`sendRequest` succeeds exactly when `s` is 200 and then returns `b`; for any other status
it returns the empty string and an error whose text is "API returned status ", the decimal
form of `s`, ": " and `b`. -/
theorem sendRequest_status (w : World) (apiConfig : APIConfig) (prompt : String)
    (trace : List Event) (requestBody : String) (req : Request) (s : Int) (b : String)
    (hkey : apiConfig.APIKey ≠ "")
    (hm : w.jsonMarshal (requestPayload prompt) = .ok requestBody)
    (hn : w.httpNewRequest "POST" apiConfig.URL requestBody = .ok req)
    (hd : w.httpDo (sendRequest.headers apiConfig req) = .ok ⟨s, (b, none)⟩) :
    ((sendRequest w apiConfig prompt trace).1.2 = none ↔ s = 200) ∧
      (s = 200 → (sendRequest w apiConfig prompt trace).1 = (b, none)) ∧
      (s ≠ 200 → (sendRequest w apiConfig prompt trace).1 =
        ("", some (.errorsNew ("API returned status " ++ fmt.decimal s ++ ": " ++ b)))) := by
  have h200 : s = 200 → (sendRequest w apiConfig prompt trace).1 = (b, none) := by
    intro hs
    simp [sendRequest, hkey, hm, hn, hd, hs]
  have hne : s ≠ 200 → (sendRequest w apiConfig prompt trace).1 =
      ("", some (.errorsNew ("API returned status " ++ fmt.decimal s ++ ": " ++ b))) := by
    intro hs
    simp [sendRequest, hkey, hm, hn, hd, hs, fmt.Sprintf_status]
  refine ⟨⟨fun h => ?_, fun hs => by rw [h200 hs]⟩, h200, hne⟩
  by_contra hs
  rw [hne hs] at h
  simp at h

/-- C7, witness: status 500 with body `server error`, status 201, and status 200. -/
theorem sendRequest_status_witness :
    (sendRequest (stubWorld "k" "server error" 500 (.exited 0))
        ⟨"deepseek", "https://api.deepseek.com/chat/completions", "k"⟩ "list files" []).1 =
      ("", some (.errorsNew "API returned status 500: server error")) ∧
    (sendRequest (stubWorld "k" "\x7b\"ok\":1\x7d" 201 (.exited 0))
        ⟨"deepseek", "https://api.deepseek.com/chat/completions", "k"⟩ "list files" []).1 =
      ("", some (.errorsNew "API returned status 201: \x7b\"ok\":1\x7d")) ∧
    (sendRequest (stubWorld "k" "\x7b\"ok\":1\x7d" 200 (.exited 0))
        ⟨"deepseek", "https://api.deepseek.com/chat/completions", "k"⟩ "list files" []).1 =
      ("\x7b\"ok\":1\x7d", none) :=
  ⟨(sendRequest_status (stubWorld "k" "server error" 500 (.exited 0))
      ⟨"deepseek", "https://api.deepseek.com/chat/completions", "k"⟩ "list files" [] "\x7b\x7d"
      ⟨"POST", "https://api.deepseek.com/chat/completions", [], "\x7b\x7d"⟩ 500 "server error"
      (by decide) rfl rfl rfl).2.2 (by decide),
    (sendRequest_status (stubWorld "k" "\x7b\"ok\":1\x7d" 201 (.exited 0))
      ⟨"deepseek", "https://api.deepseek.com/chat/completions", "k"⟩ "list files" [] "\x7b\x7d"
      ⟨"POST", "https://api.deepseek.com/chat/completions", [], "\x7b\x7d"⟩ 201 "\x7b\"ok\":1\x7d"
      (by decide) rfl rfl rfl).2.2 (by decide),
    (sendRequest_status (stubWorld "k" "\x7b\"ok\":1\x7d" 200 (.exited 0))
      ⟨"deepseek", "https://api.deepseek.com/chat/completions", "k"⟩ "list files" [] "\x7b\x7d"
      ⟨"POST", "https://api.deepseek.com/chat/completions", [], "\x7b\x7d"⟩ 200 "\x7b\"ok\":1\x7d"
      (by decide) rfl rfl rfl).2.1 rfl⟩

/-- With a key and an exchange that completes with status 200, `sendRequest` returns the
body and records the one request. -/
theorem sendRequest_ok (w : World) (apiConfig : APIConfig) (prompt : String)
    (trace : List Event) (requestBody : String) (req : Request) (b : String)
    (hkey : apiConfig.APIKey ≠ "")
    (hm : w.jsonMarshal (requestPayload prompt) = .ok requestBody)
    (hn : w.httpNewRequest "POST" apiConfig.URL requestBody = .ok req)
    (hd : w.httpDo (sendRequest.headers apiConfig req) = .ok ⟨200, (b, none)⟩) :
    sendRequest w apiConfig prompt trace =
      ((b, none), trace ++ [.http (sendRequest.headers apiConfig req)]) := by
  simp [sendRequest, hkey, hm, hn, hd]

/-- C5 (amended): with a non-empty key, a completion endpoint that answers 200 with a
body whose first choice carries content `c`, and `l` the first line of `c` that qualifies,
`main` hands exactly one command to the shell, the trimmed `l`; the process exits with 0
when that command exits with 0, and with 1 when it exits with any other code. -/
theorem main_runs_first_command_line (w : World) (osArgs : List String)
    (requestBody : String) (req : Request) (body : String) (m : GoMap) (c : String)
    (pre : List String) (l : String) (post : List String)
    (hargs : 2 ≤ osArgs.length)
    (hkey : w.getenv "DEEPSEEK_API_KEY" ≠ "")
    (hm : w.jsonMarshal (requestPayload (main.prompt w osArgs)) = .ok requestBody)
    (hn : w.httpNewRequest "POST" (deepseekAPI w).URL requestBody = .ok req)
    (hd : w.httpDo (sendRequest.headers (deepseekAPI w) req) = .ok ⟨200, (body, none)⟩)
    (hu : w.jsonUnmarshal body = .ok m) (hc : payloadContent m = some c)
    (hs : strings.Split c "\n" = pre ++ l :: post)
    (hpre : ∀ x ∈ pre, isCommandLine "```bash" x = false)
    (hl : isCommandLine "```bash" l = true) :
    shellCommands (main w osArgs).trace = [strings.TrimSpace l] ∧
      ∀ n, w.bashRun (strings.TrimSpace l) = .exited n →
        (main w osArgs).code = if n = 0 then 0 else 1 := by
  have hsend := sendRequest_ok w (deepseekAPI w) (main.prompt w osArgs)
    [Event.exec "uname" ["-a"]] requestBody req body hkey hm hn hd
  have hext : extractCommand w.jsonUnmarshal body = .ret (strings.TrimSpace l, none) := by
    rw [extractCommand_of_content _ body m c hu hc, hs, scan_first pre l post hpre hl]
  have hlen : ¬ osArgs.length < 2 := by omega
  have hmain : main w osArgs =
      match (w.bashRun (strings.TrimSpace l)).err with
      | some err =>
        ⟨[Event.exec "uname" ["-a"], .http (sendRequest.headers (deepseekAPI w) req),
          Println "\n正在执行以下命令...", Println (strings.TrimSpace l), Println "\n",
          .exec "bash" ["-c", strings.TrimSpace l],
          .stderr (w.logPrefix ++
            fmt.Sprintf "Error executing command: %v" [.error err] ++ "\n")], 1⟩
      | none =>
        ⟨[Event.exec "uname" ["-a"], .http (sendRequest.headers (deepseekAPI w) req),
          Println "\n正在执行以下命令...", Println (strings.TrimSpace l), Println "\n",
          .exec "bash" ["-c", strings.TrimSpace l]], 0⟩ := by
    unfold main
    rw [if_neg hlen]
    simp only [hsend, hext, executeCommand]
    cases (w.bashRun (strings.TrimSpace l)).err <;> simp
  rw [hmain]
  refine ⟨?_, ?_⟩
  · cases (w.bashRun (strings.TrimSpace l)).err <;> simp [shellCommands, Println]
  · intro n hn
    rw [hn]
    cases n <;> simp [RunResult.err]

/-- C5, witness: the stub endpoint answers with the specification's payload, the arguments
are `list files`, and the command exits with 0, with 1 and with 3. -/
theorem main_runs_first_command_line_witness :
    (shellCommands (main (stubWorld "k"
        (exampleBody "```bash\\nls -la\\n```") 200
        (.exited 0)) ["ray", "list", "files"]).trace = ["ls -la"] ∧
      (main (stubWorld "k"
        (exampleBody "```bash\\nls -la\\n```") 200
        (.exited 0)) ["ray", "list", "files"]).code = 0) ∧
    (main (stubWorld "k"
        (exampleBody "```bash\\nls -la\\n```") 200
        (.exited 1)) ["ray", "list", "files"]).code = 1 ∧
    (main (stubWorld "k"
        (exampleBody "```bash\\nls -la\\n```") 200
        (.exited 3)) ["ray", "list", "files"]).code = 1 :=
  ⟨⟨(main_runs_first_command_line (stubWorld "k"
        (exampleBody "```bash\\nls -la\\n```") 200
        (.exited 0)) ["ray", "list", "files"] "\x7b\x7d"
        ⟨"POST", "https://api.deepseek.com/chat/completions", [], "\x7b\x7d"⟩
        (exampleBody "```bash\\nls -la\\n```")
        [("choices", .array [.object [("message", .object [("content",
          .string "```bash\nls -la\n```")])]])]
        "```bash\nls -la\n```" ["```bash"] "ls -la" ["```"]
        (by decide) (by decide) rfl rfl rfl (by rfl) (by rfl) (by decide) (by decide)
        (by decide)).1,
      (main_runs_first_command_line (stubWorld "k"
        (exampleBody "```bash\\nls -la\\n```") 200
        (.exited 0)) ["ray", "list", "files"] "\x7b\x7d"
        ⟨"POST", "https://api.deepseek.com/chat/completions", [], "\x7b\x7d"⟩
        (exampleBody "```bash\\nls -la\\n```")
        [("choices", .array [.object [("message", .object [("content",
          .string "```bash\nls -la\n```")])]])]
        "```bash\nls -la\n```" ["```bash"] "ls -la" ["```"]
        (by decide) (by decide) rfl rfl rfl (by rfl) (by rfl) (by decide) (by decide)
        (by decide)).2 0 rfl⟩,
    (main_runs_first_command_line (stubWorld "k"
        (exampleBody "```bash\\nls -la\\n```") 200
        (.exited 1)) ["ray", "list", "files"] "\x7b\x7d"
        ⟨"POST", "https://api.deepseek.com/chat/completions", [], "\x7b\x7d"⟩
        (exampleBody "```bash\\nls -la\\n```")
        [("choices", .array [.object [("message", .object [("content",
          .string "```bash\nls -la\n```")])]])]
        "```bash\nls -la\n```" ["```bash"] "ls -la" ["```"]
        (by decide) (by decide) rfl rfl rfl (by rfl) (by rfl) (by decide) (by decide)
        (by decide)).2 1 rfl,
    (main_runs_first_command_line (stubWorld "k"
        (exampleBody "```bash\\nls -la\\n```") 200
        (.exited 3)) ["ray", "list", "files"] "\x7b\x7d"
        ⟨"POST", "https://api.deepseek.com/chat/completions", [], "\x7b\x7d"⟩
        (exampleBody "```bash\\nls -la\\n```")
        [("choices", .array [.object [("message", .object [("content",
          .string "```bash\nls -la\n```")])]])]
        "```bash\nls -la\n```" ["```bash"] "ls -la" ["```"]
        (by decide) (by decide) rfl rfl rfl (by rfl) (by rfl) (by decide) (by decide)
        (by decide)).2 3 rfl⟩

/-- C5, as stated, fails: the shell command `ls -la` exits with 3 and the process exits
with 1, after handing that one command to the shell. -/
theorem main_exit_code_is_not_the_command_exit_code :
    (stubWorld "k" (exampleBody "```bash\\nls -la\\n```")
        200 (.exited 3)).bashRun "ls -la" = .exited 3 ∧
      shellCommands (main (stubWorld "k"
        (exampleBody "```bash\\nls -la\\n```") 200
        (.exited 3)) ["ray", "list", "files"]).trace = ["ls -la"] ∧
      (main (stubWorld "k"
        (exampleBody "```bash\\nls -la\\n```") 200
        (.exited 3)) ["ray", "list", "files"]).code = 1 ∧
      (main (stubWorld "k"
        (exampleBody "```bash\\nls -la\\n```") 200
        (.exited 3)) ["ray", "list", "files"]).code ≠ 3 := by
  decide

/-- C10: a command that `extractCommand` returns without error is not empty, has no white
space at either end, holds no newline, does not begin with "```bash", and is the trimmed
form of a line of the first choice's content; and every command `main` hands to the shell
is not empty. -/
theorem extractCommand_returns_nonempty_line (unm : String → Except String GoMap)
    (resp cmd : String) (h : extractCommand unm resp = .ret (cmd, none)) :
    (cmd ≠ "" ∧ (∀ ch, cmd.data.head? = some ch → unicode.IsSpace ch = false) ∧
      (∀ ch, cmd.data.getLast? = some ch → unicode.IsSpace ch = false) ∧
      '\n' ∉ cmd.data ∧ strings.HasPrefix cmd "```bash" = false ∧
      ∃ m c l, unm resp = .ok m ∧ payloadContent m = some c ∧ l ∈ strings.Split c "\n" ∧
        cmd = strings.TrimSpace l) ∧
      ∀ (w : World) (osArgs : List String) (command : String),
        Event.exec "bash" ["-c", command] ∈ (main w osArgs).trace → command ≠ "" := by
  refine ⟨extractCommand_ok_shape unm resp cmd h, ?_⟩
  intro w osArgs command hmem
  obtain ⟨r, hr⟩ := main_bash_inv w osArgs command hmem
  exact (extractCommand_ok_shape _ r command hr).1

/-- C10, witness: the command extracted from content with blank lines and padding. -/
theorem extractCommand_returns_nonempty_line_witness :
    "rm -rf /tmp/x" ≠ "" ∧ '\n' ∉ "rm -rf /tmp/x".data ∧
      strings.HasPrefix "rm -rf /tmp/x" "```bash" = false :=
  have h := (extractCommand_returns_nonempty_line json.Unmarshal
    (exampleBody "\\n\\n  rm -rf /tmp/x \\nsome trailing comment\\n")
    "rm -rf /tmp/x" (by decide)).1
  ⟨h.1, h.2.2.2.1, h.2.2.2.2.1⟩

end Raycommand
